import Mathlib

/-!
Verification development for the dictionary-bot core
(`src/telegram_dictionary_bot.py`): the dictionary store kept as a
Python dict loaded from / saved to a JSON file, the add-word
conversation handlers, deletion, statistics, and the word search.

Modelling conventions:
* A Python dict with string keys is an association list `Dict` with
  Python-dict update semantics: assignment to an existing key replaces
  the value in place (keeping insertion position), assignment to a new
  key appends, `del` removes the binding.  Python dict keys are unique,
  so a key-`Nodup` hypothesis appears where a lemma needs it.
* Python string methods (`strip`, `lower`, `split`, `replace`,
  `startswith`, `join`) are re-implemented structurally over the
  character list of a Lean `String` so that every definition evaluates
  inside the kernel.  `strip` uses the ASCII whitespace characters and
  `lower` the ASCII letter range; the Unicode-only behaviour of the
  Python originals is outside the model.
* The JSON file content is modelled at the level of a JSON value tree
  `Json`; `json.dump` writes the tree, `json.load` either yields the
  tree of the file content or raises when the content is not valid
  JSON (an `Except Unit Json`, where `error` is the raised
  `JSONDecodeError`).
* Telegram handlers become pure functions from their inputs (message
  text, `context.user_data`, the dictionary read from the file) to a
  result record carrying the new user data, the dictionary written
  back, whether `save_dictionary` ran, the reply sent, and the next
  conversation state (`none` models `ConversationHandler.END`).
-/

namespace StrideBot

/-! ## Python string primitives -/

/-- Whitespace characters removed by Python `str.strip()` (ASCII part). -/
def pySpace (c : Char) : Bool :=
  c = ' ' || c = '\t' || c = '\n' || c = '\r' || c = '\x0b' || c = '\x0c'

/-- Python `s.strip()` on the character list: drop whitespace from both
ends. -/
def pyStripList (l : List Char) : List Char :=
  ((l.dropWhile pySpace).reverse.dropWhile pySpace).reverse

/-- Python `s.strip()`. -/
def pyStrip (s : String) : String := ⟨pyStripList s.data⟩

/-- Python `str.lower()` on one character (ASCII range). -/
def pyLowerChar (c : Char) : Char :=
  if 'A' ≤ c && c ≤ 'Z' then Char.ofNat (c.toNat + 32) else c

/-- Python `s.lower()`. -/
def pyLower (s : String) : String := ⟨s.data.map pyLowerChar⟩

/-- Python `s.split(sep)` for a one-character separator, on character
lists: keeps empty parts, `[[]]` for the empty string. -/
def splitAux (sep : Char) : List Char → List Char → List (List Char)
  | [], acc => [acc.reverse]
  | c :: cs, acc =>
    if c = sep then acc.reverse :: splitAux sep cs []
    else splitAux sep cs (c :: acc)

/-- Python `s.split(sep)` for a one-character separator. -/
def pySplit (s : String) (sep : Char) : List String :=
  (splitAux sep s.data []).map (fun l => ⟨l⟩)

/-- Python `s.startswith(pre)` on character lists. -/
def listStartsWith : List Char → List Char → Bool
  | _, [] => true
  | [], _ :: _ => false
  | a :: as, b :: bs => a = b && listStartsWith as bs

/-- Python `s.startswith(pre)`. -/
def pyStartsWith (s pre : String) : Bool := listStartsWith s.data pre.data

/-- Python `s.replace(pat, rep)`: left-to-right, non-overlapping
replacement of every occurrence.  Structural recursion on a fuel that
starts at the length of the scanned list; one character (at least) is
consumed per step, so the fuel never runs out.  The program only calls
this with the non-empty pattern `"update_"`; an empty pattern is
treated as matching nowhere. -/
def replaceFuel (pat rep : List Char) : Nat → List Char → List Char
  | 0, l => l
  | _ + 1, [] => []
  | fuel + 1, c :: cs =>
    if pat ≠ [] && listStartsWith (c :: cs) pat then
      rep ++ replaceFuel pat rep fuel (List.drop pat.length (c :: cs))
    else
      c :: replaceFuel pat rep fuel cs

/-- Python `s.replace(pat, rep)`. -/
def pyReplace (s pat rep : String) : String :=
  ⟨replaceFuel pat.data rep.data s.data.length s.data⟩

/-- Python `sep.join(parts)`. -/
def pyJoin (sep : String) : List String → String
  | [] => ""
  | [s] => s
  | s :: rest => ⟨s.data ++ sep.data ++ (pyJoin sep rest).data⟩

/-- Python f-string concatenation such as `f"update_{word}"`. -/
def pyConcat (a b : String) : String := ⟨a.data ++ b.data⟩

/-! ## Data model -/

/-- One dictionary entry as stored in `dictionary.json`:
`"meaning"` and `"examples"` (see `receive_examples`,
lines 180–183 of the source). -/
structure Entry where
  meaning : String
  examples : List String
deriving Repr, DecidableEq

/-- The in-memory dictionary: a Python dict from term to entry,
modelled as an association list in insertion order. -/
abbrev Dict := List (String × Entry)

/-- Python `word in dictionary` / `dictionary[word]` read access:
the binding for `k` (dict keys are unique, so first match). -/
def lookup : Dict → String → Option Entry
  | [], _ => none
  | p :: d, k => if p.1 = k then some p.2 else lookup d k

/-- Python `dictionary[word] = entry`: replace the value in place when
the key is present (keeping its insertion position), append a new
binding otherwise. -/
def dictInsert : Dict → String → Entry → Dict
  | [], k, v => [(k, v)]
  | p :: d, k, v => if p.1 = k then (k, v) :: d else p :: dictInsert d k v

/-- Python `del dictionary[word]`: drop the binding for `k`. -/
def dictErase : Dict → String → Dict
  | [], _ => []
  | p :: d, k => if p.1 = k then d else p :: dictErase d k

/-- The normalization applied to every term before it touches the
dictionary: `text.strip().lower()` (source lines 125 and 343). -/
def normTerm (s : String) : String :=
  pyLower (pyStrip s)

/-- Store-level upsert: the commit performed when the add-word dialogue
completes (`receive_examples`, lines 179–184), with the term
normalization that `receive_word` (line 125) applied when the term
entered the dialogue. -/
def upsert (d : Dict) (term meaning : String) (examples : List String) : Dict :=
  dictInsert d (normTerm term) ⟨meaning, examples⟩

/-- Store-level get: the lookup `search_words` performs for each
query token after normalizing it (lines 343 and 357–359). -/
def get (d : Dict) (term : String) : Option Entry :=
  lookup d (normTerm term)

/-! ## Query resolver (`search_words`, lines 338–391) -/

/-- Token list of a raw query: `query.strip()` then split on commas,
each token `strip().lower()` (lines 340–343). -/
def queryTokens (q : String) : List String :=
  (pySplit (pyStrip q) ',').map normTerm

/-- The `for word in words` loop of `search_words` (lines 357–369):
found tokens append their entry to `results`, misses append the token
to `not_found`. -/
def searchLoop (d : Dict) : List String → List (String × Entry) → List String →
    List (String × Entry) × List String
  | [], res, nf => (res, nf)
  | w :: ws, res, nf =>
    match lookup d w with
    | some e => searchLoop d ws (res ++ [(w, e)]) nf
    | none => searchLoop d ws res (nf ++ [w])

/-- Outcome of `search_words`: whether the empty-dictionary
short-circuit fired (lines 347–352), the matched tokens with their
entries in loop order, and the tokens not found in loop order. -/
structure SearchResult where
  emptyDict : Bool
  results : List (String × Entry)
  notFound : List String
deriving Repr, DecidableEq

/-- The `search_words` handler (lines 338–391): normalizes and splits
the query, short-circuits when the dictionary is empty, otherwise
partitions the tokens into found and not-found in query order. -/
def search_words (q : String) (d : Dict) : SearchResult :=
  if d.isEmpty then
    ⟨true, [], []⟩
  else
    let r := searchLoop d (queryTokens q) [] []
    ⟨false, r.1, r.2⟩

/-! ## Conversation handlers (add-word dialogue, delete, stats) -/

/-- Conversation states `WORD, MEANING, EXAMPLE = range(3)` (line 25). -/
inductive ConvState where
  | WORD
  | MEANING
  | EXAMPLE
deriving Repr, DecidableEq

/-- The `context.user_data` fields used by the dialogue. -/
structure UserData where
  new_word : Option String
  meaning : Option String
deriving Repr, DecidableEq

/-- `context.user_data.clear()` result / initial user data. -/
def emptyUserData : UserData := ⟨none, none⟩

/-- The replies a handler can send, by kind and payload. -/
inductive Reply where
  | permissionDenied
  | promptWord
  | confirmUpdate (word meaning : String) (choices : List String)
  | promptMeaning (word : String)
  | promptExamples
  | completed (word meaning : String) (examples : List String)
  | cancelled
  | deleted (word : String)
  | deleteUsage
  | notFoundMsg (word : String)
deriving Repr, DecidableEq

/-- Result of one dialogue handler invocation: the new
`context.user_data`, the dictionary after the handler (what
`save_dictionary` wrote when `saved` is true), the reply, and the next
conversation state (`none` models `ConversationHandler.END`). -/
structure StepResult where
  userData : UserData
  dict : Dict
  saved : Bool
  reply : Reply
  next : Option ConvState
deriving Repr, DecidableEq

/-- `is_admin` (lines 68–70): membership in the configured admin list. -/
def is_admin (adminIds : List Int) (userId : Int) : Bool :=
  adminIds.contains userId

/-- `add_word_start` (lines 108–120): non-admins are rejected and the
conversation ends before it starts; admins are prompted for the word
and the conversation enters state `WORD`. -/
def add_word_start (adminIds : List Int) (userId : Int) (ud : UserData)
    (d : Dict) : StepResult :=
  if is_admin adminIds userId then
    ⟨ud, d, false, .promptWord, some .WORD⟩
  else
    ⟨ud, d, false, .permissionDenied, none⟩

/-- `receive_word` (lines 123–151): normalize the term, remember it in
`user_data`, and either ask for confirmation when the term exists
(staying in state `WORD`, with the two inline buttons carrying callback
data `update_` + word and `cancel_add`) or advance to `MEANING`. -/
def receive_word (text : String) (ud : UserData) (d : Dict) : StepResult :=
  let word := normTerm text
  let ud1 : UserData := { ud with new_word := some word }
  match lookup d word with
  | some e =>
    ⟨ud1, d, false,
     .confirmUpdate word e.meaning [pyConcat "update_" word, "cancel_add"],
     some .WORD⟩
  | none => ⟨ud1, d, false, .promptMeaning word, some .MEANING⟩

/-- `receive_meaning` (lines 154–168): store the stripped meaning and
advance to `EXAMPLE`. -/
def receive_meaning (text : String) (ud : UserData) (d : Dict) : StepResult :=
  ⟨{ ud with meaning := some (pyStrip text) }, d, false, .promptExamples,
   some .EXAMPLE⟩

/-- The example parsing of `receive_examples` (lines 173–174): strip
the whole text, split on newlines, strip each line, keep the non-empty
ones. -/
def exampleLines (text : String) : List String :=
  ((pySplit (pyStrip text) '\n').map pyStrip).filter (fun s => s ≠ "")

/-- `receive_examples` (lines 171–201): parse the examples, write the
entry under the pending term, save, clear `user_data`, end the
conversation.  `none` models the `KeyError` if `user_data` lacks the
pending fields (unreachable through the dialogue). -/
def receive_examples (text : String) (ud : UserData) (d : Dict) :
    Option StepResult :=
  match ud.new_word, ud.meaning with
  | some word, some meaning =>
    let examples := exampleLines text
    some ⟨emptyUserData, dictInsert d word ⟨meaning, examples⟩, true,
          .completed word meaning examples, none⟩
  | _, _ => none

/-- `cancel_add` (lines 204–218): clear `user_data`, reply that the
operation was cancelled, end the conversation.  No store access. -/
def cancel_add (_ud : UserData) (d : Dict) : StepResult :=
  ⟨emptyUserData, d, false, .cancelled, none⟩

/-- `button_callback` (lines 221–236): callback data starting with
`update_` re-seeds `new_word` with the data minus every `update_`
occurrence (Python `str.replace`) and advances to `MEANING`;
`cancel_add` delegates to `cancel_add`; anything else falls through
(Python returns `None`). -/
def button_callback (dat : String) (ud : UserData) (d : Dict) :
    Option StepResult :=
  if pyStartsWith dat "update_" then
    let word := pyReplace dat "update_" ""
    some ⟨{ ud with new_word := some word }, d, false, .promptMeaning word,
          some .MEANING⟩
  else if dat = "cancel_add" then
    some (cancel_add ud d)
  else
    none

/-- Result of a single-shot admin command (`delete_word`): the
dictionary afterwards, whether `save_dictionary` ran, the reply. -/
structure AdminResult where
  dict : Dict
  saved : Bool
  reply : Reply
deriving Repr, DecidableEq

/-- `delete_word` (lines 239–267): admin-gated; the argument words are
joined with spaces and lower-cased (no strip — the arguments are
whitespace-free tokens); a present term is deleted and saved, an
absent term leaves the store untouched. -/
def delete_word (adminIds : List Int) (userId : Int) (args : List String)
    (d : Dict) : AdminResult :=
  if !is_admin adminIds userId then
    ⟨d, false, .permissionDenied⟩
  else if args.isEmpty then
    ⟨d, false, .deleteUsage⟩
  else
    let word := pyLower (pyJoin " " args)
    if (lookup d word).isSome then
      ⟨dictErase d word, true, .deleted word⟩
    else
      ⟨d, false, .notFoundMsg word⟩

/-- The statistics triple of `stats` (lines 306–310): word count,
total number of examples, and their ratio — `0` when the count is `0`.
Python's float division is modelled as exact division in `ℚ`. -/
structure StatsData where
  count : Nat
  totalExamples : Nat
  avgExamples : ℚ
deriving Repr, DecidableEq

/-- The computation of `stats` (lines 306–310). -/
def stats (d : Dict) : StatsData :=
  let total_words := d.length
  let total_examples := (d.map (fun p => p.2.examples.length)).sum
  ⟨total_words, total_examples,
   if total_words > 0 then (total_examples : ℚ) / (total_words : ℚ) else 0⟩

/-! ## Persistence (`load_dictionary` / `save_dictionary`) -/

/-- JSON value trees, the parse result of `json.load` and the input of
`json.dump`. -/
inductive Json where
  | null
  | num (n : Int)
  | str (s : String)
  | arr (xs : List Json)
  | obj (fields : List (String × Json))
deriving Repr

/-- The JSON tree `json.dump` writes for one entry (lines 180–183). -/
def encodeEntry (e : Entry) : Json :=
  .obj [("meaning", .str e.meaning), ("examples", .arr (e.examples.map .str))]

/-- `save_dictionary` (lines 62–65) at the JSON-tree level: the
document serialized to `dictionary.json` (indentation and encoding are
rendering details of the `json` library). -/
def save_dictionary (d : Dict) : Json :=
  .obj (d.map (fun p => (p.1, encodeEntry p.2)))

/-- `load_dictionary` (lines 54–59).  The durable storage is `none`
when `dictionary.json` does not exist; otherwise it holds the result
of `json.load` on the file content: `Except.error ()` when the content
is not valid JSON (the raised `JSONDecodeError`, which
`load_dictionary` does not catch) and `Except.ok j` for the parsed
tree `j`, which is returned as-is with no structural validation. -/
def load_dictionary : Option (Except Unit Json) → Except Unit Json
  | none => .ok (.obj [])
  | some r => r

/-- Field access in a JSON object's field list (first match). -/
def jLookup : List (String × Json) → String → Option Json
  | [], _ => none
  | p :: fs, k => if p.1 = k then some p.2 else jLookup fs k

/-- The binding a term has in a serialized document. -/
def docLookup (j : Json) (k : String) : Option Json :=
  match j with
  | .obj fields => jLookup fields k
  | _ => none

/-- Reading a list of JSON strings back (inverse of `examples`
serialization). -/
def decodeStrList : List Json → Option (List String)
  | [] => some []
  | .str s :: js =>
    match decodeStrList js with
    | some ss => some (s :: ss)
    | none => none
  | _ :: _ => none

/-- Reading one entry back from its JSON tree: the expected structure
per the storage format (spec section 6) is an object with a string
`"meaning"` and an array-of-strings `"examples"`, key order
insignificant. -/
def decodeEntry (j : Json) : Option Entry :=
  match j with
  | .obj fields =>
    match jLookup fields "meaning", jLookup fields "examples" with
    | some (.str m), some (.arr xs) =>
      match decodeStrList xs with
      | some exs => some ⟨m, exs⟩
      | none => none
    | _, _ => none
  | _ => none

/-- Reading the fields of the document object back into the mapping. -/
def decodeFields : List (String × Json) → Option Dict
  | [] => some []
  | (k, v) :: fs =>
    match decodeEntry v, decodeFields fs with
    | some e, some d => some ((k, e) :: d)
    | _, _ => none

/-- Reading a whole persisted document back into the term-to-entry
mapping; `none` when the tree is not of the expected structure. -/
def decodeDict (j : Json) : Option Dict :=
  match j with
  | .obj fields => decodeFields fields
  | _ => none

/-! ## Association-list lemmas for the dict operations -/

theorem lookup_dictInsert_self (d : Dict) (k : String) (v : Entry) :
    lookup (dictInsert d k v) k = some v := by
  induction d with
  | nil => simp [dictInsert, lookup]
  | cons p d ih =>
    by_cases hp : p.1 = k
    · simp [dictInsert, lookup, hp]
    · simp [dictInsert, lookup, hp, ih]

theorem lookup_dictInsert_ne (d : Dict) (k k' : String) (v : Entry)
    (h : k' ≠ k) : lookup (dictInsert d k v) k' = lookup d k' := by
  have h1 : ¬(k = k') := fun a => h a.symm
  induction d with
  | nil => simp [dictInsert, lookup, h1]
  | cons p d ih =>
    by_cases hp : p.1 = k
    · have h2 : ¬(p.1 = k') := by rw [hp]; exact h1
      simp [dictInsert, lookup, hp, h1, h2]
    · simp [dictInsert, lookup, hp, ih]

theorem lookup_eq_none_of_not_mem_keys (d : Dict) (k : String)
    (h : k ∉ d.map (fun p => p.1)) : lookup d k = none := by
  induction d with
  | nil => simp [lookup]
  | cons p d ih =>
    simp only [List.map_cons, List.mem_cons] at h
    push_neg at h
    have hp : ¬(p.1 = k) := fun a => h.1 a.symm
    simp [lookup, hp, ih h.2]

theorem lookup_dictErase_self (d : Dict) (k : String)
    (hnd : (d.map (fun p => p.1)).Nodup) :
    lookup (dictErase d k) k = none := by
  induction d with
  | nil => simp [dictErase, lookup]
  | cons p d ih =>
    simp only [List.map_cons, List.nodup_cons] at hnd
    by_cases hp : p.1 = k
    · have : k ∉ d.map (fun p => p.1) := hp ▸ hnd.1
      simpa [dictErase, hp] using lookup_eq_none_of_not_mem_keys d k this
    · simp [dictErase, lookup, hp, ih hnd.2]

theorem lookup_dictErase_ne (d : Dict) (k k' : String) (h : k' ≠ k) :
    lookup (dictErase d k) k' = lookup d k' := by
  have h1 : ¬(k = k') := fun a => h a.symm
  induction d with
  | nil => simp [dictErase, lookup]
  | cons p d ih =>
    by_cases hp : p.1 = k
    · have h2 : ¬(p.1 = k') := by rw [hp]; exact h1
      simp [dictErase, lookup, hp, h1, h2]
    · by_cases hp' : p.1 = k'
      · simp [dictErase, lookup, hp, hp', h]
      · simp [dictErase, lookup, hp, hp', ih]

theorem searchLoop_spec (d : Dict) (ws : List String)
    (res : List (String × Entry)) (nf : List String) :
    searchLoop d ws res nf =
      (res ++ ws.filterMap (fun w => (lookup d w).map (fun e => (w, e))),
       nf ++ ws.filter (fun w => (lookup d w).isNone)) := by
  induction ws generalizing res nf with
  | nil => simp [searchLoop]
  | cons w ws ih =>
    cases hw : lookup d w with
    | some e => simp [searchLoop, hw, ih]
    | none => simp [searchLoop, hw, ih]

theorem listStartsWith_append_self (l extra : List Char) :
    listStartsWith (l ++ extra) l = true := by
  induction l with
  | nil => cases extra <;> simp [listStartsWith]
  | cons a as ih => simp [listStartsWith, ih]

theorem pyStartsWith_pyConcat_self (p w : String) :
    pyStartsWith (pyConcat p w) p = true := by
  simp [pyStartsWith, pyConcat, listStartsWith_append_self]

theorem docLookup_save_dictionary (d : Dict) (k : String) :
    docLookup (save_dictionary d) k = (lookup d k).map encodeEntry := by
  induction d with
  | nil => simp [save_dictionary, docLookup, jLookup, lookup]
  | cons p d ih =>
    by_cases hp : p.1 = k
    · simp [save_dictionary, docLookup, jLookup, lookup, hp]
    · simpa [save_dictionary, docLookup, jLookup, lookup, hp] using ih

theorem decodeStrList_map_str (xs : List String) :
    decodeStrList (xs.map .str) = some xs := by
  induction xs with
  | nil => simp [decodeStrList]
  | cons x xs ih => simp [decodeStrList, ih]

theorem decodeEntry_encodeEntry (e : Entry) :
    decodeEntry (encodeEntry e) = some e := by
  simp [decodeEntry, encodeEntry, jLookup, decodeStrList_map_str]

/-! ## Claims -/

/-- C1: for every term `t`, meaning and examples list, `upsert(t,
meaning, examples)` followed by `get(t')` for any `t'` with the same
normalization as `t` (equal up to letter casing and leading/trailing
whitespace) returns the last-written meaning and examples, because
both the insert and the lookup normalize the term before touching the
mapping. -/
theorem C1_upsert_then_get (d : Dict) (t t' m : String) (ex : List String)
    (h : normTerm t' = normTerm t) :
    get (upsert d t m ex) t' = some ⟨m, ex⟩ := by
  unfold get upsert
  rw [h]
  exact lookup_dictInsert_self d (normTerm t) ⟨m, ex⟩

/-- Witness for C1 at `t = "cat"`, `t' = "  CAT "`. -/
theorem C1_upsert_then_get_witness :
    normTerm "  CAT " = normTerm "cat" ∧
    get (upsert [] "cat" "a feline" ["The cat sat."]) "  CAT " =
      some ⟨"a feline", ["The cat sat."]⟩ :=
  ⟨by decide, C1_upsert_then_get [] "cat" "  CAT " "a feline" ["The cat sat."]
    (by decide)⟩

/-- C2 counterexample: `search_words` neither drops duplicate tokens
(the query `"cat, cat"` over a store containing `cat` yields the entry
twice in `results`) nor tokens that are empty after trimming (the
query `"fox,,"` puts `"fox"` and two empty tokens in `not_found`);
over an empty store it short-circuits with neither matches nor
unmatched tokens instead of reporting the tokens unmatched. -/
theorem C2_search_words_counterexample :
    (search_words "cat, cat" [("cat", ⟨"a feline", []⟩)]).results =
      [("cat", ⟨"a feline", []⟩), ("cat", ⟨"a feline", []⟩)] ∧
    (search_words "fox,," [("cat", ⟨"a feline", []⟩)]).notFound =
      ["fox", "", ""] ∧
    search_words "fox" [] = ⟨true, [], []⟩ := by
  refine ⟨?_, ?_, ?_⟩ <;> decide

/-- C2 amended: over a non-empty store, `search_words` splits the
query on commas and trims and normalizes each token, keeping every
token — duplicates and tokens empty after trimming included — in
first-to-last query order; the found tokens' entries populate
`results` in query order and the not-found tokens populate `not_found`
in query order.  (Over an empty store it short-circuits to the
empty-dictionary outcome instead.) -/
theorem C2_search_words_resolution (q : String) (d : Dict) (h : d ≠ []) :
    (search_words q d).emptyDict = false ∧
    (search_words q d).results =
      (queryTokens q).filterMap (fun w => (lookup d w).map (fun e => (w, e))) ∧
    (search_words q d).notFound =
      (queryTokens q).filter (fun w => (lookup d w).isNone) := by
  have hne : d.isEmpty = false := by
    cases d with
    | nil => exact absurd rfl h
    | cons p d => rfl
  refine ⟨?_, ?_, ?_⟩ <;> simp [search_words, hne, searchLoop_spec]

/-- Witness for C2 amended, realizing the spec's worked example:
`resolve("Cat, fox, DOG")` over a store with `cat` and `dog` matches
`cat` and `dog` in that order and reports `fox` unmatched. -/
theorem C2_search_words_resolution_witness :
    ([("cat", ⟨"a feline", []⟩), ("dog", ⟨"a canine", []⟩)] : Dict) ≠ [] ∧
    (search_words "Cat, fox, DOG"
        [("cat", ⟨"a feline", []⟩), ("dog", ⟨"a canine", []⟩)]).results =
      [("cat", ⟨"a feline", []⟩), ("dog", ⟨"a canine", []⟩)] ∧
    (search_words "Cat, fox, DOG"
        [("cat", ⟨"a feline", []⟩), ("dog", ⟨"a canine", []⟩)]).notFound =
      ["fox"] := by
  have h := C2_search_words_resolution "Cat, fox, DOG"
    [("cat", ⟨"a feline", []⟩), ("dog", ⟨"a canine", []⟩)] (by decide)
  exact ⟨by decide, h.2.1.trans (by decide), h.2.2.trans (by decide)⟩

/-- C6: a non-admin invoking `/add` gets the permission-denied reply
and no conversation is opened (`ConversationHandler.END`), with
`user_data`, the dictionary and the file untouched; an admin is
prompted for the word and the conversation enters state `WORD`. -/
theorem C6_add_word_start (adminIds : List Int) (userId : Int)
    (ud : UserData) (d : Dict) :
    (is_admin adminIds userId = false →
      add_word_start adminIds userId ud d =
        ⟨ud, d, false, .permissionDenied, none⟩) ∧
    (is_admin adminIds userId = true →
      add_word_start adminIds userId ud d =
        ⟨ud, d, false, .promptWord, some .WORD⟩) := by
  constructor <;> intro h <;> simp [add_word_start, h]

/-- Witness for C6: with admin list `[42]`, user `7` is rejected with
no session and user `42` enters state `WORD`. -/
theorem C6_add_word_start_witness :
    add_word_start [42] 7 emptyUserData [] =
      ⟨emptyUserData, [], false, .permissionDenied, none⟩ ∧
    add_word_start [42] 42 emptyUserData [] =
      ⟨emptyUserData, [], false, .promptWord, some .WORD⟩ :=
  ⟨(C6_add_word_start [42] 7 emptyUserData []).1 (by decide),
   (C6_add_word_start [42] 42 emptyUserData []).2 (by decide)⟩

/-- C7: saving a mapping and loading it back round-trips: the loaded
content is exactly the saved document, and reading that document back
yields every term with its exact meaning and its examples element for
element in order. -/
theorem C7_save_load_roundtrip (d : Dict) :
    load_dictionary (some (.ok (save_dictionary d))) =
      .ok (save_dictionary d) ∧
    decodeDict (save_dictionary d) = some d := by
  refine ⟨rfl, ?_⟩
  induction d with
  | nil => simp [save_dictionary, decodeDict, decodeFields]
  | cons p d ih =>
    simp only [save_dictionary, decodeDict, List.map_cons, decodeFields,
      decodeEntry_encodeEntry] at ih ⊢
    rw [ih]

/-- C3: with a session holding a pending term and meaning, the
examples step commits `upsert(pendingTerm, pendingMeaning, examples)`
with the committed examples drawn one per non-empty line (each the
stripped form of a line of the message, blank lines dropped), saves,
clears the session and ends the conversation with the completion
reply; a submission whose lines are all blank commits the entry with
zero examples rather than being rejected. -/
theorem C3_receive_examples_commit (text : String) (ud : UserData) (d : Dict)
    (w m : String) (hw : ud.new_word = some w) (hm : ud.meaning = some m) :
    receive_examples text ud d =
      some ⟨emptyUserData, dictInsert d w ⟨m, exampleLines text⟩, true,
            .completed w m (exampleLines text), none⟩ ∧
    lookup (dictInsert d w ⟨m, exampleLines text⟩) w =
      some ⟨m, exampleLines text⟩ ∧
    (∀ e ∈ exampleLines text,
      e ≠ "" ∧ ∃ l ∈ pySplit (pyStrip text) '\n', e = pyStrip l) ∧
    (pyStrip text = "" → exampleLines text = []) := by
  refine ⟨?_, lookup_dictInsert_self d w ⟨m, exampleLines text⟩, ?_, ?_⟩
  · simp [receive_examples, hw, hm]
  · intro e he
    simp only [exampleLines, List.mem_filter, List.mem_map] at he
    obtain ⟨⟨l, hl, rfl⟩, hne⟩ := he
    exact ⟨by simpa using hne, l, hl, rfl⟩
  · intro hblank
    simp [exampleLines, hblank]
    decide

/-- Witness for C3: the spec's completion example commits
`happy -> (feeling joy, two examples)`, and an all-blank submission
commits an entry with zero examples. -/
theorem C3_receive_examples_commit_witness :
    receive_examples "She felt happy.\nHe is happy too."
        ⟨some "happy", some "feeling joy"⟩ [] =
      some ⟨emptyUserData,
            [("happy", ⟨"feeling joy",
              ["She felt happy.", "He is happy too."]⟩)], true,
            .completed "happy" "feeling joy"
              ["She felt happy.", "He is happy too."], none⟩ ∧
    receive_examples "   \n  \n" ⟨some "quiet", some "silent"⟩ [] =
      some ⟨emptyUserData, [("quiet", ⟨"silent", []⟩)], true,
            .completed "quiet" "silent" [], none⟩ :=
  ⟨((C3_receive_examples_commit "She felt happy.\nHe is happy too."
      ⟨some "happy", some "feeling joy"⟩ [] "happy" "feeling joy" rfl
      rfl).1).trans (by decide),
   ((C3_receive_examples_commit "   \n  \n" ⟨some "quiet", some "silent"⟩ []
      "quiet" "silent" rfl rfl).1).trans (by decide)⟩

/-- C4 counterexample: the confirm branch recovers the term from the
callback payload with `query.data.replace("update_", "")`, which
removes every occurrence of `update_`, not just the marker prefix.
For the stored term `"update_x"` the prompt's confirm button carries
`"update_update_x"`, and choosing confirm seeds
`pendingTerm = "x"`, not the colliding term `"update_x"`. -/
theorem C4_confirm_counterexample :
    (receive_word "update_x" emptyUserData
        [("update_x", ⟨"a marker", []⟩)]).reply =
      .confirmUpdate "update_x" "a marker" ["update_update_x", "cancel_add"] ∧
    (button_callback "update_update_x" emptyUserData
        [("update_x", ⟨"a marker", []⟩)]).map
        (fun s => (s.userData.new_word, s.next)) =
      some (some "x", some .MEANING) ∧
    some "x" ≠ some ("update_x" : String) := by
  refine ⟨?_, ?_, ?_⟩ <;> decide

/-- C4 amended: submitting a term whose normalization collides with an
existing entry does not advance the dialogue — the handler stays in
state `WORD` and replies with the existing meaning and exactly two
choices (`update_` + term and `cancel_add`).  Choosing confirm
advances to `MEANING` with `pendingTerm` re-seeded from the callback
payload with every `update_` occurrence removed — equal to the
normalized colliding term whenever that removal recovers it (in
particular for any term not containing `update_`).  Choosing cancel
clears the session, ends the conversation and leaves the store
unchanged with no save. -/
theorem C4_collision_flow (text : String) (ud ud2 ud3 : UserData) (d : Dict)
    (e : Entry) (hcol : lookup d (normTerm text) = some e)
    (hrep : pyReplace (pyConcat "update_" (normTerm text)) "update_" "" =
      normTerm text) :
    receive_word text ud d =
      ⟨{ ud with new_word := some (normTerm text) }, d, false,
       .confirmUpdate (normTerm text) e.meaning
         [pyConcat "update_" (normTerm text), "cancel_add"], some .WORD⟩ ∧
    button_callback (pyConcat "update_" (normTerm text)) ud2 d =
      some ⟨{ ud2 with new_word := some (normTerm text) }, d, false,
            .promptMeaning (normTerm text), some .MEANING⟩ ∧
    button_callback "cancel_add" ud3 d =
      some ⟨emptyUserData, d, false, .cancelled, none⟩ := by
  refine ⟨?_, ?_, ?_⟩
  · simp [receive_word, hcol]
  · simp [button_callback, pyStartsWith_pyConcat_self, hrep]
  · have hns : pyStartsWith "cancel_add" "update_" = false := by decide
    simp [button_callback, hns, cancel_add]

/-- Witness for C4 amended, realizing the spec's collision example for
the existing term `"happy"`. -/
theorem C4_collision_flow_witness :
    lookup [("happy", ⟨"feeling joy", []⟩)] (normTerm "happy") =
      some ⟨"feeling joy", []⟩ ∧
    receive_word "happy" emptyUserData [("happy", ⟨"feeling joy", []⟩)] =
      ⟨⟨some "happy", none⟩, [("happy", ⟨"feeling joy", []⟩)], false,
       .confirmUpdate "happy" "feeling joy" ["update_happy", "cancel_add"],
       some .WORD⟩ ∧
    button_callback "update_happy" ⟨some "happy", none⟩
        [("happy", ⟨"feeling joy", []⟩)] =
      some ⟨⟨some "happy", none⟩, [("happy", ⟨"feeling joy", []⟩)], false,
            .promptMeaning "happy", some .MEANING⟩ ∧
    button_callback "cancel_add" ⟨some "happy", none⟩
        [("happy", ⟨"feeling joy", []⟩)] =
      some ⟨emptyUserData, [("happy", ⟨"feeling joy", []⟩)], false,
            .cancelled, none⟩ := by
  have h := C4_collision_flow "happy" emptyUserData ⟨some "happy", none⟩
    ⟨some "happy", none⟩ [("happy", ⟨"feeling joy", []⟩)]
    ⟨"feeling joy", []⟩ (by decide) (by decide)
  exact ⟨by decide, h.1.trans (by decide), h.2.1.trans (by decide),
    h.2.2.trans (by decide)⟩

/-- C5: `delete_word` (admin, with arguments) normalizes the argument
term by joining and lower-casing; when the normalized term is present
it removes exactly that entry, reports the deletion, saves, and any
subsequent `get` of a term with the same normalization returns
nothing (given the dict-key uniqueness invariant); when it is absent
it replies not-found and leaves the store unchanged with no save. -/
theorem C5_delete_word (adminIds : List Int) (userId : Int)
    (args : List String) (d : Dict)
    (hadmin : is_admin adminIds userId = true) (hargs : args ≠ []) :
    ((lookup d (pyLower (pyJoin " " args))).isSome = true →
      delete_word adminIds userId args d =
        ⟨dictErase d (pyLower (pyJoin " " args)), true,
         .deleted (pyLower (pyJoin " " args))⟩ ∧
      ((d.map (fun p => p.1)).Nodup → ∀ t,
        normTerm t = pyLower (pyJoin " " args) →
        get (dictErase d (pyLower (pyJoin " " args))) t = none)) ∧
    ((lookup d (pyLower (pyJoin " " args))).isSome = false →
      delete_word adminIds userId args d =
        ⟨d, false, .notFoundMsg (pyLower (pyJoin " " args))⟩) := by
  have hne : args.isEmpty = false := by
    cases args with
    | nil => exact absurd rfl hargs
    | cons a as => rfl
  constructor
  · intro hmem
    constructor
    · simp [delete_word, hadmin, hne, hmem]
    · intro hnd t ht
      unfold get
      rw [ht]
      exact lookup_dictErase_self d (pyLower (pyJoin " " args)) hnd
  · intro hmem
    simp [delete_word, hadmin, hne, hmem]

/-- Witness for C5: deleting `["Cat"]` from a store with `cat` and
`dog` removes `cat`, saves, and `get "  CAT "` then returns nothing;
deleting `["fox"]` from the same store changes nothing and does not
save. -/
theorem C5_delete_word_witness :
    is_admin [42] 42 = true ∧
    delete_word [42] 42 ["Cat"]
        [("cat", ⟨"a feline", []⟩), ("dog", ⟨"a canine", []⟩)] =
      ⟨[("dog", ⟨"a canine", []⟩)], true, .deleted "cat"⟩ ∧
    get [("dog", ⟨"a canine", []⟩)] "  CAT " = none ∧
    delete_word [42] 42 ["fox"]
        [("cat", ⟨"a feline", []⟩), ("dog", ⟨"a canine", []⟩)] =
      ⟨[("cat", ⟨"a feline", []⟩), ("dog", ⟨"a canine", []⟩)], false,
       .notFoundMsg "fox"⟩ := by
  have h := C5_delete_word [42] 42 ["Cat"]
    [("cat", ⟨"a feline", []⟩), ("dog", ⟨"a canine", []⟩)] (by decide)
    (by decide)
  have h2 := C5_delete_word [42] 42 ["fox"]
    [("cat", ⟨"a feline", []⟩), ("dog", ⟨"a canine", []⟩)] (by decide)
    (by decide)
  have hdel := (h.1 (by decide)).1
  have hget := (h.1 (by decide)).2 (by decide) "  CAT " (by decide)
  refine ⟨by decide, hdel.trans (by decide), ?_, h2.2 (by decide)⟩
  have : dictErase [("cat", ⟨"a feline", []⟩), ("dog", ⟨"a canine", []⟩)]
      (pyLower (pyJoin " " ["Cat"])) = [("dog", ⟨"a canine", []⟩)] := by
    decide
  exact this ▸ hget

/-- C8: `stats` on the empty store returns count `0`, total examples
`0` and average `0` without faulting — the division is guarded by the
count check; on a non-empty store the average equals the total number
of examples divided by the count (division in `ℚ`, modelling Python's
float division exactly on these operands). -/
theorem C8_stats (d : Dict) :
    stats ([] : Dict) = ⟨0, 0, 0⟩ ∧
    (d ≠ [] →
      (stats d).avgExamples =
        ((stats d).totalExamples : ℚ) / ((stats d).count : ℚ)) := by
  constructor
  · rfl
  · intro h
    have hpos : 0 < d.length := by
      cases d with
      | nil => exact absurd rfl h
      | cons p d => exact Nat.succ_pos _
    simp [stats, hpos]

/-- Witness for C8: a one-entry store with two examples has average
`2`. -/
theorem C8_stats_witness :
    ([("cat", ⟨"a feline", ["one", "two"]⟩)] : Dict) ≠ [] ∧
    (stats [("cat", ⟨"a feline", ["one", "two"]⟩)]).avgExamples = 2 := by
  have h := (C8_stats [("cat", ⟨"a feline", ["one", "two"]⟩)]).2
    (by decide)
  refine ⟨by decide, h.trans ?_⟩
  norm_num [stats]

/-- C9 counterexample: `load_dictionary` performs no structural
validation and catches nothing.  Content that is valid JSON but not
the expected mapping structure (here the number `5`) is returned
as a success rather than failing with a `CorruptStorage` result, and
content that is not valid JSON makes the `json.load` exception
propagate out of `load_dictionary` instead of resolving to a returned
failure result. -/
theorem C9_load_counterexample :
    load_dictionary (some (.ok (.num 5))) = .ok (.num 5) ∧
    decodeDict (.num 5) = none ∧
    load_dictionary (some (.error ())) = .error () :=
  ⟨rfl, rfl, rfl⟩

/-- C9 amended: `load_dictionary` returns the empty mapping when no
storage file exists (and that document reads back as the empty
mapping); when the file content parses as JSON the parsed tree is
returned as-is with no validation of its structure, and when it does
not parse the deserialization exception propagates uncaught out of
`load_dictionary` rather than resolving to a returned
`CorruptStorage`-style result. -/
theorem C9_load_dictionary_behavior (r : Except Unit Json) :
    load_dictionary none = .ok (.obj []) ∧
    decodeDict (.obj []) = some [] ∧
    load_dictionary (some r) = r :=
  ⟨rfl, rfl, rfl⟩

/-- C10: the dialogue-commit upsert and `delete_word` each touch at
most the binding of their own normalized term: every other term keeps
its exact meaning and examples, both in the in-memory mapping and in
the re-serialized document. -/
theorem C10_mutation_frame (text : String) (ud : UserData) (d : Dict)
    (w m : String) (adminIds : List Int) (userId : Int)
    (args : List String) (k : String)
    (hw : ud.new_word = some w) (hm : ud.meaning = some m)
    (h1 : k ≠ w) (h2 : k ≠ pyLower (pyJoin " " args)) :
    (∀ r, receive_examples text ud d = some r →
      lookup r.dict k = lookup d k ∧
      docLookup (save_dictionary r.dict) k =
        docLookup (save_dictionary d) k) ∧
    lookup (delete_word adminIds userId args d).dict k = lookup d k ∧
    docLookup (save_dictionary (delete_word adminIds userId args d).dict) k =
      docLookup (save_dictionary d) k := by
  have hins : lookup (dictInsert d w ⟨m, exampleLines text⟩) k = lookup d k :=
    lookup_dictInsert_ne d w k ⟨m, exampleLines text⟩ h1
  have hdeldict :
      lookup (delete_word adminIds userId args d).dict k = lookup d k := by
    unfold delete_word
    split
    · rfl
    · split
      · rfl
      · dsimp only
        split
        · exact lookup_dictErase_ne d (pyLower (pyJoin " " args)) k h2
        · rfl
  refine ⟨?_, hdeldict, ?_⟩
  · intro r hr
    simp only [receive_examples, hw, hm, Option.some.injEq] at hr
    rw [← hr]
    exact ⟨hins, by rw [docLookup_save_dictionary, docLookup_save_dictionary,
      hins]⟩
  · rw [docLookup_save_dictionary, docLookup_save_dictionary, hdeldict]

/-- Witness for C10: committing `happy` and deleting `cat` both leave
the binding of `dog` untouched, in memory and in the saved document. -/
theorem C10_mutation_frame_witness :
    (∀ r, receive_examples "He smiled." ⟨some "happy", some "feeling joy"⟩
        [("dog", ⟨"a canine", ["Dogs bark."]⟩)] = some r →
      lookup r.dict "dog" =
        lookup [("dog", ⟨"a canine", ["Dogs bark."]⟩)] "dog" ∧
      docLookup (save_dictionary r.dict) "dog" =
        docLookup (save_dictionary [("dog", ⟨"a canine", ["Dogs bark."]⟩)])
          "dog") ∧
    lookup (delete_word [42] 42 ["cat"]
        [("dog", ⟨"a canine", ["Dogs bark."]⟩)]).dict "dog" =
      lookup [("dog", ⟨"a canine", ["Dogs bark."]⟩)] "dog" ∧
    docLookup (save_dictionary (delete_word [42] 42 ["cat"]
        [("dog", ⟨"a canine", ["Dogs bark."]⟩)]).dict) "dog" =
      docLookup (save_dictionary [("dog", ⟨"a canine", ["Dogs bark."]⟩)])
        "dog" :=
  C10_mutation_frame "He smiled." ⟨some "happy", some "feeling joy"⟩
    [("dog", ⟨"a canine", ["Dogs bark."]⟩)] "happy" "feeling joy"
    [42] 42 ["cat"] "dog" rfl rfl (by decide) (by decide)

end StrideBot
